import Mathlib

/-!
Verification of the cashflow analytics core against its specification.

The definitions below are a shallow embedding of the TypeScript source:
  - `src/src/controllers/handleFileUpload.ts` (analytics: grouping, chart
    series, category breakdown, period validation)
  - `src/src/controllers/dashboardController.ts` (health score, month
    ranges, percentage change, dashboard assembly)
  - the transaction controller (create/list/period summary)

JavaScript numbers are modelled as exact rationals (`ℚ`); `Math.round x`
is `⌊x + 1/2⌋`, which is JS round-half-up semantics.
-/

namespace Cashflow

/-- Transaction type: the data model's closed set `income | expense`
(`src/src/models/Transaction.ts`). -/
inductive TType where
  | income
  | expense
  deriving DecidableEq, Repr

/-- A transaction record, restricted to the fields the analytics core
reads: `amount`, `type`, `category` and the ISO `date` string. -/
structure Transaction where
  amount : ℚ
  type : TType
  category : String
  date : String
  deriving DecidableEq, Repr

/-- JavaScript `Math.round`: round half away from zero towards `+∞`,
i.e. `⌊x + 1/2⌋`. -/
def jsRound (q : ℚ) : ℤ := ⌊q + 1/2⌋

/-- Source `transaction.date.split('T')[0]`: the `YYYY-MM-DD` day key, the part
of the ISO string before the first `T` (written on the underlying
character list). -/
def dayKey (s : String) : String := ⟨s.data.takeWhile (fun c => c ≠ 'T')⟩

/-! ## Transaction aggregation (summary code of `getAnalytics` /
`getTransactionsByPeriod`) -/

/-- Source `transactions.filter(t => t.type === 'income').reduce((sum, t) => sum + t.amount, 0)`. -/
def totalIncome (ts : List Transaction) : ℚ :=
  (ts.filter (fun t => t.type = TType.income)).foldl (fun sum t => sum + t.amount) 0

/-- Source `transactions.filter(t => t.type === 'expense').reduce((sum, t) => sum + t.amount, 0)`. -/
def totalExpenses (ts : List Transaction) : ℚ :=
  (ts.filter (fun t => t.type = TType.expense)).foldl (fun sum t => sum + t.amount) 0

/-- Source `netAmount = totalIncome - totalExpenses`. -/
def netAmount (ts : List Transaction) : ℚ := totalIncome ts - totalExpenses ts

/-- Source `transactionCount: transactions.length`. -/
def transactionCount (ts : List Transaction) : ℕ := ts.length

/-- Spec-side restatement: "`totalIncome = Σ amount where type=income`". -/
def specTotalIncome (ts : List Transaction) : ℚ :=
  ((ts.filter (fun t => t.type = TType.income)).map Transaction.amount).sum

/-- Spec-side restatement: "`totalExpenses = Σ amount where type=expense`". -/
def specTotalExpenses (ts : List Transaction) : ℚ :=
  ((ts.filter (fun t => t.type = TType.expense)).map Transaction.amount).sum

/-! ## Daily grouping and chart series (`handleFileUpload.ts` lines 225–265) -/

/-- JS object accumulation `obj[k] = obj[k] + v` (initialising missing keys
to zero), as an association list in insertion order of first occurrence —
the enumeration order of `Object.keys`/`Object.entries` for string keys. -/
def accumKey {α : Type} [Add α] : List (String × α) → String → α → List (String × α)
  | [], k, v => [(k, v)]
  | (k', v') :: rest, k, v =>
    if k' = k then (k', v' + v) :: rest else (k', v') :: accumKey rest k v

/-- The `(income, expense)` contribution of one transaction to its day
bucket: `grouped[date].income += amount` or `grouped[date].expense += amount`. -/
def contribOf (t : Transaction) : ℚ × ℚ :=
  match t.type with
  | TType.income => (t.amount, 0)
  | TType.expense => (0, t.amount)

/-- Source `groupTransactionsByDate` (lines 225–245): bucket transactions by the
`YYYY-MM-DD` part of their date, accumulating income and expense sums per
day, in first-encounter key order. -/
def groupTransactionsByDate (ts : List Transaction) : List (String × (ℚ × ℚ)) :=
  ts.foldl (fun acc t => accumKey acc (dayKey t.date) (contribOf t)) []

/-- One chart point: `{ date, income, expense, net, cumulativeBalance }`. -/
structure DailyPoint where
  date : String
  income : ℚ
  expense : ℚ
  net : ℚ
  cumulativeBalance : ℚ
  deriving DecidableEq, Repr

/-- The running-balance map of `generateChartData`'s `sortedDates.map`:
`net = income - expense; cumulativeBalance += net`. -/
def chartMap (balance : ℚ) : List (String × (ℚ × ℚ)) → List DailyPoint
  | [] => []
  | (d, v) :: rest =>
    { date := d, income := v.1, expense := v.2, net := v.1 - v.2,
      cumulativeBalance := balance + (v.1 - v.2) } :: chartMap (balance + (v.1 - v.2)) rest

/-- Ascending order on the string keys of an association list, the order
`Object.keys(...).sort()` produces. -/
def keyLe {α : Type} (p q : String × α) : Prop := p.1 ≤ q.1

instance {α : Type} : DecidableRel (@keyLe α) :=
  fun p q => inferInstanceAs (Decidable (p.1 ≤ q.1))

instance {α : Type} : IsTotal (String × α) keyLe := ⟨fun a b => le_total a.1 b.1⟩

instance {α : Type} : IsTrans (String × α) keyLe := ⟨fun _ _ _ => le_trans⟩

/-- Source `generateChartData` (lines 248–265): sort the day keys ascending
(`Object.keys(groupedData).sort()` is lexicographic on the `YYYY-MM-DD`
strings), then fold the cumulative balance forward. -/
def generateChartData (groupedData : List (String × (ℚ × ℚ)))
    (startingBalance : ℚ) : List DailyPoint :=
  chartMap startingBalance (groupedData.insertionSort keyLe)

/-! ## Health score and percentage change (`dashboardController.ts`) -/

/-- Source `calculateHealthScore` (dashboardController.ts lines 6–10):
`if (income === 0) return expenses === 0 ? 100 : 0;`
`return Math.max(0, Math.min(100, Math.round((ratio + 1) * 50)))` with
`ratio = (income - expenses) / income`. -/
def calculateHealthScore (income expenses : ℚ) : ℤ :=
  if income = 0 then (if expenses = 0 then 100 else 0)
  else max 0 (min 100 (jsRound (((income - expenses) / income + 1) * 50)))

/-- Source `calculatePercentageChange` (dashboardController.ts lines 37–40):
`if (previous === 0) return current > 0 ? 100 : 0;`
`return Math.round(((current - previous) / previous) * 100)`. -/
def calculatePercentageChange (current previous : ℚ) : ℤ :=
  if previous = 0 then (if current > 0 then 100 else 0)
  else jsRound ((current - previous) / previous * 100)

/-- One dashboard card: `{ value, percentageChange, trend }`. -/
structure Metric where
  value : ℚ
  percentageChange : ℤ
  trend : String
  deriving Repr

/-- The dashboard payload assembled by `getDashboard`. -/
structure Dashboard where
  monthlyIncome : Metric
  monthlyExpense : Metric
  currentBalance : Metric
  healthScore : Metric
  deriving Repr

/-- The pure computation of `getDashboard` (dashboardController.ts lines
92–151) on the already-fetched current/previous month transactions and the
stored balance: incomes and expenses by `filter`/`reduce`, health scores,
percentage changes, and the four `trend` ternaries of lines 124–145. -/
def getDashboardData (currentTransactions previousTransactions : List Transaction)
    (currentBalance : ℚ) : Dashboard :=
  let currentIncome := totalIncome currentTransactions
  let currentExpenses := totalExpenses currentTransactions
  let previousIncome := totalIncome previousTransactions
  let previousExpenses := totalExpenses previousTransactions
  let currentHealthScore := calculateHealthScore currentIncome currentExpenses
  let previousHealthScore := calculateHealthScore previousIncome previousExpenses
  let incomeChange := calculatePercentageChange currentIncome previousIncome
  let expenseChange := calculatePercentageChange currentExpenses previousExpenses
  let healthScoreChange :=
    calculatePercentageChange (currentHealthScore : ℚ) (previousHealthScore : ℚ)
  let estimatedPreviousBalance := currentBalance - (currentIncome - currentExpenses)
  let balanceChange := calculatePercentageChange currentBalance estimatedPreviousBalance
  { monthlyIncome :=
      { value := currentIncome, percentageChange := incomeChange,
        trend := if incomeChange ≥ 0 then "up" else "down" }
    monthlyExpense :=
      { value := currentExpenses, percentageChange := expenseChange,
        trend := if expenseChange ≥ 0 then "up" else "down" }
    currentBalance :=
      { value := currentBalance, percentageChange := balanceChange,
        trend := if balanceChange ≥ 0 then "up" else "down" }
    healthScore :=
      { value := (currentHealthScore : ℚ), percentageChange := healthScoreChange,
        trend := if healthScoreChange ≥ 0 then "up" else "down" } }

/-- Accumulation of a whole list of `(key, value)` pairs, as the
`forEach` loops of `groupTransactionsByDate` and
`calculateCategoryBreakdown` do. -/
def groupBy {α : Type} [Add α] (ps : List (String × α)) : List (String × α) :=
  ps.foldl (fun acc p => accumKey acc p.1 p.2) []

/-- First-match lookup with default 0: the value JS reads back from an
accumulation object. -/
def lookupAmount : List (String × ℚ) → String → ℚ
  | [], _ => 0
  | (k', v') :: rest, k => if k' = k then v' else lookupAmount rest k

/-! ## Category breakdown (`handleFileUpload.ts` lines 268–299) -/

/-- One category slice `{ category, amount, percentage }`. -/
structure CategorySlice where
  category : String
  amount : ℚ
  percentage : ℤ
  deriving DecidableEq, Repr

/-- The order of `.sort((a, b) => b.amount - a.amount)`: `a` may precede
`b` iff `b.amount ≤ a.amount`. JS `Array.prototype.sort` is stable and
this comparator is a total preorder, so its output is the unique stable
descending-by-amount ordering, which `List.insertionSort` by this
relation reproduces. -/
def amountGe (a b : CategorySlice) : Prop := b.amount ≤ a.amount

instance : DecidableRel amountGe :=
  fun a b => inferInstanceAs (Decidable (b.amount ≤ a.amount))

instance : IsTotal CategorySlice amountGe := ⟨fun a b => le_total b.amount a.amount⟩

instance : IsTrans CategorySlice amountGe := ⟨fun _ _ _ h1 h2 => le_trans h2 h1⟩

/-- The slice built for one accumulated `(category, amount)` entry:
`percentage: total > 0 ? Math.round((amount / total) * 100) : 0`. -/
def sliceOf (total : ℚ) (p : String × ℚ) : CategorySlice :=
  { category := p.1, amount := p.2,
    percentage := if 0 < total then jsRound (p.2 / total * 100) else 0 }

/-- Source `formatCategories` (lines 285–293): map the accumulated entries (in
grouping insertion order) to slices, then sort by descending amount. -/
def formatCategories (categories : List (String × ℚ)) (total : ℚ) : List CategorySlice :=
  (categories.map (sliceOf total)).insertionSort amountGe

/-- The running accumulator of `calculateCategoryBreakdown`'s `forEach`
(lines 269–283): two per-category maps and two running totals. -/
structure BreakdownAcc where
  incomeCategories : List (String × ℚ)
  expenseCategories : List (String × ℚ)
  totalIncome : ℚ
  totalExpenses : ℚ

/-- One step of the `forEach` of lines 275–283. -/
def breakdownStep (acc : BreakdownAcc) (t : Transaction) : BreakdownAcc :=
  match t.type with
  | TType.income =>
    { acc with incomeCategories := accumKey acc.incomeCategories t.category t.amount,
               totalIncome := acc.totalIncome + t.amount }
  | TType.expense =>
    { acc with expenseCategories := accumKey acc.expenseCategories t.category t.amount,
               totalExpenses := acc.totalExpenses + t.amount }

/-- The accumulator after the whole `forEach`. -/
def breakdownAcc (ts : List Transaction) : BreakdownAcc :=
  ts.foldl breakdownStep ⟨[], [], 0, 0⟩

/-- The category breakdown `{ income, expense }` returned at lines 295–298. -/
structure CategoryBreakdown where
  income : List CategorySlice
  expense : List CategorySlice
  deriving Repr

/-- Source `calculateCategoryBreakdown` (lines 268–299). -/
def calculateCategoryBreakdown (ts : List Transaction) : CategoryBreakdown :=
  { income := formatCategories (breakdownAcc ts).incomeCategories (breakdownAcc ts).totalIncome,
    expense :=
      formatCategories (breakdownAcc ts).expenseCategories (breakdownAcc ts).totalExpenses }

/-! ## Calendar month ranges (`dashboardController.ts` lines 13–34)

Civil (server-local) time is modelled at JavaScript's millisecond
precision: an `Instant` is an absolute month index (`year * 12 + month`,
month 0-based as in `Date.getMonth`) plus the milliseconds elapsed inside
that month, ordered lexicographically. -/

/-- Gregorian leap year. -/
def isLeap (y : ℤ) : Prop := y % 4 = 0 ∧ (y % 100 ≠ 0 ∨ y % 400 = 0)

instance (y : ℤ) : Decidable (isLeap y) :=
  inferInstanceAs (Decidable (_ ∧ _))

/-- Days in the month with absolute index `m` (April, June, September,
November have 30; February 28/29; the rest 31). -/
def daysInMonth (m : ℤ) : ℤ :=
  let mo := m % 12
  if mo = 1 then (if isLeap (m / 12) then 29 else 28)
  else if mo = 3 ∨ mo = 5 ∨ mo = 8 ∨ mo = 10 then 30
  else 31

/-- Length of month `m` in milliseconds. -/
def monthMs (m : ℤ) : ℤ := daysInMonth m * 86400000

/-- A millisecond-precision civil instant. -/
structure Instant where
  month : ℤ
  ms : ℤ
  deriving DecidableEq, Repr

/-- Lexicographic order on instants. -/
def Instant.le (a b : Instant) : Prop :=
  a.month < b.month ∨ (a.month = b.month ∧ a.ms ≤ b.ms)

/-- Well-formed instant: its millisecond offset lies inside its month. -/
def Instant.WF (t : Instant) : Prop := 0 ≤ t.ms ∧ t.ms < monthMs t.month

/-- The JS `new Date(year, month, day, h, mi, s)` constructor for the
argument shapes `getMonthRanges` uses: an possibly out-of-range month is
carried into the year (absolute index `year * 12 + month`), and day `0`
denotes the last day of the previous month. -/
def jsMkDate (y M d h mi s : ℤ) : Instant :=
  let A := y * 12 + M
  if d = 0 then
    { month := A - 1,
      ms := (daysInMonth (A - 1) - 1) * 86400000 + ((h * 60 + mi) * 60 + s) * 1000 }
  else
    { month := A, ms := (d - 1) * 86400000 + ((h * 60 + mi) * 60 + s) * 1000 }

/-- An inclusive range `{ start, end }` of instants. -/
structure MonthRange where
  rangeStart : Instant
  rangeEnd : Instant
  deriving DecidableEq, Repr

/-- The `{ current, previous }` pair of `getMonthRanges`. -/
structure MonthRanges where
  current : MonthRange
  previous : MonthRange
  deriving DecidableEq, Repr

/-- Source `getMonthRanges` (dashboardController.ts lines 13–34):
`new Date(y, m, 1)` / `new Date(y, m + 1, 0, 23, 59, 59)` for the current
month and `new Date(y, m - 1, 1)` / `new Date(y, m, 0, 23, 59, 59)` for
the previous one, where `y`/`m` come from `now`. -/
def getMonthRanges (now : Instant) : MonthRanges :=
  let y := now.month / 12
  let mo := now.month % 12
  let currentMonthStart := jsMkDate y mo 1 0 0 0
  let currentMonthEnd := jsMkDate y (mo + 1) 0 23 59 59
  let prevMonthStart := jsMkDate y (mo - 1) 1 0 0 0
  let prevMonthEnd := jsMkDate y mo 0 23 59 59
  { current := { rangeStart := currentMonthStart, rangeEnd := currentMonthEnd },
    previous := { rangeStart := prevMonthStart, rangeEnd := prevMonthEnd } }

/-- Inclusive membership in a range. -/
def inRange (r : MonthRange) (t : Instant) : Prop :=
  Instant.le r.rangeStart t ∧ Instant.le t r.rangeEnd

/-- Claim C9 as stated: the current range covers the month of `now` from
its first to its *last* instant, the previous range the month before, and
every well-formed timestamp between the first instant of the previous
month and the last instant of the current month lies in exactly one of
the two inclusive ranges. -/
def monthPairSpec (now : Instant) : Prop :=
  (getMonthRanges now).current.rangeStart = ⟨now.month, 0⟩ ∧
  (getMonthRanges now).current.rangeEnd = ⟨now.month, monthMs now.month - 1⟩ ∧
  (getMonthRanges now).previous.rangeStart = ⟨now.month - 1, 0⟩ ∧
  (getMonthRanges now).previous.rangeEnd = ⟨now.month - 1, monthMs (now.month - 1) - 1⟩ ∧
  ∀ t : Instant, t.WF →
    Instant.le ⟨now.month - 1, 0⟩ t →
    Instant.le t ⟨now.month, monthMs now.month - 1⟩ →
    (inRange (getMonthRanges now).previous t ↔ ¬ inRange (getMonthRanges now).current t)

/-! ## Period validation and endpoint responses -/

/-- The closed period vocabulary checked by `getTransactionsByPeriod`
(part_008 lines 200–205) and `getAnalytics` (handleFileUpload.ts lines
311–316). -/
def validPeriods : List String := ["7d", "30d", "90d", "1y"]

/-- The 400 message both endpoints return for an unknown period token. -/
def invalidPeriodMsg : String := "Invalid period. Use: 7d, 30d, 90d, or 1y"

/-- The period duration in milliseconds from the `switch` of
`getDateRanges` / `getTransactionsByPeriod` (default branch: 30 days). -/
def periodMs (period : String) : ℚ :=
  if period = "7d" then 7 * 24 * 60 * 60 * 1000
  else if period = "30d" then 30 * 24 * 60 * 60 * 1000
  else if period = "90d" then 90 * 24 * 60 * 60 * 1000
  else if period = "1y" then 365 * 24 * 60 * 60 * 1000
  else 30 * 24 * 60 * 60 * 1000

/-- An HTTP outcome: success body, or a 400-class client error. -/
inductive ApiResponse (α : Type) where
  | ok (body : α)
  | clientError (msg : String)
  deriving DecidableEq

/-- The period-summary body of `getTransactionsByPeriod` (part_008 lines
252–266); the date range is kept in epoch milliseconds. -/
structure PeriodSummaryBody where
  period : String
  rangeStart : ℚ
  rangeEnd : ℚ
  totalIncome : ℚ
  totalExpenses : ℚ
  netAmount : ℚ
  transactionCount : ℕ
  transactions : List Transaction
  deriving DecidableEq

/-- The analytics body of `getAnalytics` (handleFileUpload.ts lines
364–378). -/
structure AnalyticsBody where
  period : String
  rangeStart : ℚ
  rangeEnd : ℚ
  totalIncome : ℚ
  totalExpenses : ℚ
  netAmount : ℚ
  transactionCount : ℕ
  chartData : List DailyPoint
  categoryBreakdown : CategoryBreakdown

/-- Source `getTransactionsByPeriod` (part_008 lines 190–270) on an
already-fetched row set: the userId check, then the period validation
(both before any fetch — the response below is built from `fetched`
only after validation passes), then the summary. -/
def getTransactionsByPeriodResp (userId : Option String) (period : String) (now : ℚ)
    (fetched : List Transaction) : ApiResponse PeriodSummaryBody :=
  match userId with
  | none => .clientError "User ID not found in token"
  | some _ =>
    if period ∈ validPeriods then
      .ok { period := period, rangeStart := now - periodMs period, rangeEnd := now,
            totalIncome := totalIncome fetched, totalExpenses := totalExpenses fetched,
            netAmount := netAmount fetched, transactionCount := fetched.length,
            transactions := fetched }
    else .clientError invalidPeriodMsg

/-- Source `getAnalytics` (handleFileUpload.ts lines 301–382) on an
already-fetched balance and row set. -/
def getAnalyticsResp (userId : Option String) (period : String) (now : ℚ)
    (currentBalance : ℚ) (fetched : List Transaction) : ApiResponse AnalyticsBody :=
  match userId with
  | none => .clientError "User ID not found in token"
  | some _ =>
    if period ∈ validPeriods then
      .ok { period := period, rangeStart := now - periodMs period, rangeEnd := now,
            totalIncome := totalIncome fetched, totalExpenses := totalExpenses fetched,
            netAmount := netAmount fetched, transactionCount := fetched.length,
            chartData := generateChartData (groupTransactionsByDate fetched)
              (currentBalance - netAmount fetched),
            categoryBreakdown := calculateCategoryBreakdown fetched }
    else .clientError invalidPeriodMsg

/-! ## Transaction creation (part_008 lines 77–161) -/

/-- A JavaScript request-body value for `amount`: a finite number, `NaN`
(`typeof` number but `isNaN`), or any non-number value. -/
inductive JsVal where
  | num (q : ℚ)
  | nan
  | other
  deriving DecidableEq, Repr

/-- The request body of `createTransaction`; absent fields are `none`. -/
structure CreateTransactionRequest where
  type : Option String
  amount : JsVal
  description : Option String
  category : Option String
  date : Option String
  deriving DecidableEq, Repr

/-- Per-user persistent state touched by the endpoint: the transaction
table rows and the stored balance. -/
structure UserState where
  transactions : List Transaction
  balance : ℚ
  deriving DecidableEq, Repr

/-- Outcome of `createTransaction`: a 201 with the stored transaction and
updated balance, or a 400-class error. -/
inductive CreateResult where
  | created (t : Transaction) (currentBalance : ℚ)
  | clientError (msg : String)
  deriving DecidableEq, Repr

/-- Recogniser for `CreateResult.clientError`. -/
def CreateResult.isError : CreateResult → Bool
  | .clientError _ => true
  | _ => false

/-- Source `categorizeTransaction` (part_008 lines 71–75). -/
def categorizeTransaction (ty : String) : String :=
  if ty = "income" then "General Income"
  else if ty = "expense" then "General Expense"
  else "Uncategorized"

/-- Source `createTransaction` (part_008 lines 77–161): userId, type, amount and
description validation in source order (`||` falsiness of the empty
string included), then the stored transaction and the balance update. -/
def createTransaction (userId : Option String) (req : CreateTransactionRequest)
    (now : String) (st : UserState) : CreateResult × UserState :=
  match userId with
  | none => (.clientError "User ID not found in token", st)
  | some _ =>
    match req.type with
    | none => (.clientError "Invalid or missing transaction type", st)
    | some tyStr =>
      if tyStr = "income" ∨ tyStr = "expense" then
        match req.amount with
        | .num q =>
          if q ≤ 0 then (.clientError "Amount must be a positive number", st)
          else
            match req.description with
            | none => (.clientError "Description is required", st)
            | some d =>
              if d = "" then (.clientError "Description is required", st)
              else
                let cat := match req.category with
                  | some c => if c = "" then categorizeTransaction tyStr else c
                  | none => categorizeTransaction tyStr
                let dt := match req.date with
                  | some s => if s = "" then now else s
                  | none => now
                let ty := if tyStr = "income" then TType.income else TType.expense
                let tx : Transaction := ⟨q, ty, cat, dt⟩
                let change := if tyStr = "income" then q else -q
                (.created tx (st.balance + change),
                 ⟨tx :: st.transactions, st.balance + change⟩)
        | .nan => (.clientError "Amount must be a positive number", st)
        | .other => (.clientError "Amount must be a positive number", st)
      else (.clientError "Invalid or missing transaction type", st)

/-- A small fixture: two income transactions in categories `A` and `B`
on one day (the spec's category-breakdown scenario). -/
def sampleIncome : List Transaction :=
  [⟨60, TType.income, "A", "2024-01-05T00:00:00.000Z"⟩,
   ⟨40, TType.income, "B", "2024-01-05T01:00:00.000Z"⟩]

/-! ## Lemmas -/

lemma foldl_add_amount (l : List Transaction) (a : ℚ) :
    l.foldl (fun sum t => sum + t.amount) a = a + (l.map Transaction.amount).sum := by
  induction l generalizing a with
  | nil => simp
  | cons t l ih => simp [List.foldl_cons, ih, add_assoc]

lemma totalIncome_eq_spec (ts : List Transaction) : totalIncome ts = specTotalIncome ts := by
  simp [totalIncome, specTotalIncome, foldl_add_amount]

lemma totalExpenses_eq_spec (ts : List Transaction) :
    totalExpenses ts = specTotalExpenses ts := by
  simp [totalExpenses, specTotalExpenses, foldl_add_amount]

lemma jsRound_le (q : ℚ) : (jsRound q : ℚ) ≤ q + 1/2 := Int.floor_le _

lemma lt_jsRound (q : ℚ) : q - 1/2 < (jsRound q : ℚ) := by
  have h := Int.sub_one_lt_floor (q + 1/2)
  unfold jsRound
  linarith

lemma jsRound_eq_of (q : ℚ) {n : ℤ} (h1 : (n : ℚ) ≤ q + 1/2) (h2 : q + 1/2 < n + 1) :
    jsRound q = n := by
  unfold jsRound
  rw [Int.floor_eq_iff]
  exact ⟨h1, h2⟩

lemma trend_up_iff (c : ℤ) :
    ((if c ≥ 0 then "up" else "down") = "up" ↔ 0 ≤ c) ∧
    ((if c ≥ 0 then "up" else "down") = "down" ↔ c < 0) := by
  by_cases h : c ≥ 0
  · simp [h]
  · simp [h]
    omega

/-- C2: for every transaction list, `totalIncome` is the sum of income
amounts, `totalExpenses` the sum of expense amounts,
`netAmount = totalIncome - totalExpenses`, `transactionCount` is the list
length, and the empty list yields the all-zero aggregate. -/
theorem aggregation_correct (ts : List Transaction) :
    totalIncome ts = specTotalIncome ts ∧
    totalExpenses ts = specTotalExpenses ts ∧
    netAmount ts = totalIncome ts - totalExpenses ts ∧
    transactionCount ts = ts.length ∧
    totalIncome [] = 0 ∧ totalExpenses [] = 0 ∧
    netAmount [] = 0 ∧ transactionCount [] = 0 := by
  refine ⟨totalIncome_eq_spec ts, totalExpenses_eq_spec ts, rfl, rfl, ?_, ?_, ?_, ?_⟩
  all_goals simp [totalIncome, totalExpenses, netAmount, transactionCount]

/-- C6: for non-negative income and expenses, `calculateHealthScore`
returns 100 at `(0,0)`, 0 when income is 0 and expenses positive, the
clamped rounded affine formula otherwise; the score always lies in
`[0, 100]`, and the four reference values hold. -/
theorem healthScore_formula (income expenses : ℚ)
    (_hi : 0 ≤ income) (_he : 0 ≤ expenses) :
    (income = 0 ∧ expenses = 0 → calculateHealthScore income expenses = 100) ∧
    (income = 0 ∧ 0 < expenses → calculateHealthScore income expenses = 0) ∧
    (income ≠ 0 → calculateHealthScore income expenses
      = max 0 (min 100 (jsRound (((income - expenses) / income + 1) * 50)))) ∧
    0 ≤ calculateHealthScore income expenses ∧
    calculateHealthScore income expenses ≤ 100 ∧
    calculateHealthScore 0 0 = 100 ∧ calculateHealthScore 0 5 = 0 ∧
    calculateHealthScore 1000 1000 = 50 ∧ calculateHealthScore 1000 0 = 100 := by
  have h50 : jsRound (50 : ℚ) = 50 := jsRound_eq_of _ (by norm_num) (by norm_num)
  have h100 : jsRound (100 : ℚ) = 100 := jsRound_eq_of _ (by norm_num) (by norm_num)
  refine ⟨?_, ?_, ?_, ?_, ?_, by decide, by decide,
    by norm_num [calculateHealthScore, h50], by norm_num [calculateHealthScore, h100]⟩
  · rintro ⟨h0, he0⟩; simp [calculateHealthScore, h0, he0]
  · rintro ⟨h0, hpos⟩; simp [calculateHealthScore, h0, ne_of_gt hpos]
  · intro h0; simp [calculateHealthScore, h0]
  · by_cases h0 : income = 0
    · by_cases he0 : expenses = 0 <;> simp [calculateHealthScore, h0, he0]
    · simp only [calculateHealthScore, h0, if_false]
      exact le_max_left 0 _
  · by_cases h0 : income = 0
    · by_cases he0 : expenses = 0 <;> simp [calculateHealthScore, h0, he0]
    · simp only [calculateHealthScore, h0, if_false]
      exact max_le (by norm_num) (min_le_left _ _)

/-- Witness for C6 at concrete inputs. -/
theorem healthScore_formula_witness :
    calculateHealthScore 0 0 = 100 ∧ calculateHealthScore 0 5 = 0 ∧
    calculateHealthScore 1000 1000 = 50 ∧ calculateHealthScore 1000 0 = 100 := by
  have h := healthScore_formula 0 0 le_rfl le_rfl
  exact ⟨h.2.2.2.2.2.1, h.2.2.2.2.2.2.1, h.2.2.2.2.2.2.2.1, h.2.2.2.2.2.2.2.2⟩

/-- C7: `calculatePercentageChange` returns 100 when `previous = 0` and
`current > 0`, 0 when `previous = 0` and `current ≤ 0` (so `pc 0 0 = 0`
and `pc 50 0 = 100`), otherwise the rounded relative change; and every
dashboard trend label is `"up"` exactly when its percentage change is
`≥ 0` and `"down"` exactly when it is negative. -/
theorem percentageChange_trend (current previous : ℚ) :
    (previous = 0 → 0 < current → calculatePercentageChange current previous = 100) ∧
    (previous = 0 → current ≤ 0 → calculatePercentageChange current previous = 0) ∧
    calculatePercentageChange 0 0 = 0 ∧
    calculatePercentageChange 50 0 = 100 ∧
    (previous ≠ 0 → calculatePercentageChange current previous
      = jsRound ((current - previous) / previous * 100)) ∧
    (∀ (ctx ptx : List Transaction) (bal : ℚ),
      ((getDashboardData ctx ptx bal).monthlyIncome.trend = "up"
        ↔ 0 ≤ (getDashboardData ctx ptx bal).monthlyIncome.percentageChange) ∧
      ((getDashboardData ctx ptx bal).monthlyIncome.trend = "down"
        ↔ (getDashboardData ctx ptx bal).monthlyIncome.percentageChange < 0) ∧
      ((getDashboardData ctx ptx bal).monthlyExpense.trend = "up"
        ↔ 0 ≤ (getDashboardData ctx ptx bal).monthlyExpense.percentageChange) ∧
      ((getDashboardData ctx ptx bal).monthlyExpense.trend = "down"
        ↔ (getDashboardData ctx ptx bal).monthlyExpense.percentageChange < 0) ∧
      ((getDashboardData ctx ptx bal).currentBalance.trend = "up"
        ↔ 0 ≤ (getDashboardData ctx ptx bal).currentBalance.percentageChange) ∧
      ((getDashboardData ctx ptx bal).currentBalance.trend = "down"
        ↔ (getDashboardData ctx ptx bal).currentBalance.percentageChange < 0) ∧
      ((getDashboardData ctx ptx bal).healthScore.trend = "up"
        ↔ 0 ≤ (getDashboardData ctx ptx bal).healthScore.percentageChange) ∧
      ((getDashboardData ctx ptx bal).healthScore.trend = "down"
        ↔ (getDashboardData ctx ptx bal).healthScore.percentageChange < 0)) := by
  refine ⟨?_, ?_, by decide, by decide, ?_, ?_⟩
  · intro h0 hc; simp [calculatePercentageChange, h0, hc]
  · intro h0 hc
    simp [calculatePercentageChange, h0, not_lt.mpr hc]
  · intro h0; simp [calculatePercentageChange, h0]
  · intro ctx ptx bal
    refine ⟨(trend_up_iff _).1, (trend_up_iff _).2, (trend_up_iff _).1,
      (trend_up_iff _).2, (trend_up_iff _).1, (trend_up_iff _).2,
      (trend_up_iff _).1, (trend_up_iff _).2⟩

/-- Witness for C7: both zero-baseline branches and the rounded branch at
concrete inputs. -/
theorem percentageChange_trend_witness :
    calculatePercentageChange 50 0 = 100 ∧
    calculatePercentageChange 0 0 = 0 ∧
    calculatePercentageChange 150 100 = jsRound ((150 - 100) / 100 * 100) := by
  refine ⟨(percentageChange_trend 50 0).1 rfl (by norm_num),
    (percentageChange_trend 0 0).2.1 rfl le_rfl,
    (percentageChange_trend 150 100).2.2.2.2.1 (by norm_num)⟩

/-! ## Properties of keyed accumulation -/

lemma groupTransactionsByDate_eq_groupBy (ts : List Transaction) :
    groupTransactionsByDate ts
      = groupBy (ts.map (fun t => (dayKey t.date, contribOf t))) := by
  simp [groupTransactionsByDate, groupBy, List.foldl_map]

lemma accumKey_keys_mem {α : Type} [Add α] (l : List (String × α)) (k : String) (v : α)
    (h : k ∈ l.map Prod.fst) : (accumKey l k v).map Prod.fst = l.map Prod.fst := by
  induction l with
  | nil => simp at h
  | cons p rest ih =>
    obtain ⟨k', v'⟩ := p
    by_cases hk : k' = k
    · simp [accumKey, hk]
    · simp only [List.map_cons, List.mem_cons] at h
      rcases h with h | h
      · exact absurd h.symm hk
      · simp [accumKey, hk, ih h]

lemma accumKey_keys_not_mem {α : Type} [Add α] (l : List (String × α)) (k : String) (v : α)
    (h : k ∉ l.map Prod.fst) : (accumKey l k v).map Prod.fst = l.map Prod.fst ++ [k] := by
  induction l with
  | nil => simp [accumKey]
  | cons p rest ih =>
    obtain ⟨k', v'⟩ := p
    simp only [List.map_cons, List.mem_cons, not_or] at h
    have hk : k' ≠ k := fun hh => h.1 hh.symm
    simp [accumKey, hk, ih h.2]

lemma mem_keys_accumKey {α : Type} [Add α] (l : List (String × α)) (k k' : String) (v : α) :
    k ∈ (accumKey l k' v).map Prod.fst ↔ k ∈ l.map Prod.fst ∨ k = k' := by
  by_cases h : k' ∈ l.map Prod.fst
  · rw [accumKey_keys_mem _ _ _ h]
    constructor
    · exact Or.inl
    · rintro (hh | rfl)
      · exact hh
      · exact h
  · rw [accumKey_keys_not_mem _ _ _ h]
    simp [List.mem_append]

lemma nodup_keys_accumKey {α : Type} [Add α] (l : List (String × α)) (k : String) (v : α)
    (h : (l.map Prod.fst).Nodup) : ((accumKey l k v).map Prod.fst).Nodup := by
  by_cases hk : k ∈ l.map Prod.fst
  · rwa [accumKey_keys_mem _ _ _ hk]
  · rw [accumKey_keys_not_mem _ _ _ hk]
    simp [List.nodup_append, h, hk]

lemma nodup_keys_groupBy_aux {α : Type} [Add α] (ps : List (String × α))
    (acc : List (String × α)) (h : (acc.map Prod.fst).Nodup) :
    ((ps.foldl (fun acc p => accumKey acc p.1 p.2) acc).map Prod.fst).Nodup := by
  induction ps generalizing acc with
  | nil => simpa using h
  | cons p rest ih => exact ih _ (nodup_keys_accumKey _ _ _ h)

lemma nodup_keys_groupBy {α : Type} [Add α] (ps : List (String × α)) :
    ((groupBy ps).map Prod.fst).Nodup :=
  nodup_keys_groupBy_aux ps [] (by simp)

lemma mem_keys_groupBy_aux {α : Type} [Add α] (ps : List (String × α))
    (acc : List (String × α)) (k : String) :
    k ∈ ((ps.foldl (fun acc p => accumKey acc p.1 p.2) acc).map Prod.fst)
      ↔ k ∈ acc.map Prod.fst ∨ k ∈ ps.map Prod.fst := by
  induction ps generalizing acc with
  | nil => simp
  | cons p rest ih =>
    simp only [List.foldl_cons, List.map_cons, List.mem_cons]
    rw [ih, mem_keys_accumKey]
    tauto

lemma mem_keys_groupBy {α : Type} [Add α] (ps : List (String × α)) (k : String) :
    k ∈ (groupBy ps).map Prod.fst ↔ k ∈ ps.map Prod.fst := by
  rw [groupBy, mem_keys_groupBy_aux]
  simp

lemma sum_accumKey {α : Type} [Add α] (f : α → ℚ)
    (hf : ∀ a b, f (a + b) = f a + f b) (l : List (String × α)) (k : String) (v : α) :
    ((accumKey l k v).map (fun p => f p.2)).sum = (l.map (fun p => f p.2)).sum + f v := by
  induction l with
  | nil => simp [accumKey]
  | cons p rest ih =>
    obtain ⟨k', v'⟩ := p
    by_cases hk : k' = k
    · simp [accumKey, hk, hf]
      ring
    · simp [accumKey, hk, ih]
      ring

lemma sum_groupBy_aux {α : Type} [Add α] (f : α → ℚ)
    (hf : ∀ a b, f (a + b) = f a + f b) (ps : List (String × α))
    (acc : List (String × α)) :
    ((ps.foldl (fun acc p => accumKey acc p.1 p.2) acc).map (fun p => f p.2)).sum
      = (acc.map (fun p => f p.2)).sum + (ps.map (fun p => f p.2)).sum := by
  induction ps generalizing acc with
  | nil => simp
  | cons p rest ih =>
    simp only [List.foldl_cons, List.map_cons, List.sum_cons]
    rw [ih, sum_accumKey f hf]
    ring

lemma sum_groupBy {α : Type} [Add α] (f : α → ℚ)
    (hf : ∀ a b, f (a + b) = f a + f b) (ps : List (String × α)) :
    ((groupBy ps).map (fun p => f p.2)).sum = (ps.map (fun p => f p.2)).sum := by
  rw [groupBy, sum_groupBy_aux f hf]
  simp

/-! ## Chart series lemmas -/

lemma chartMap_map_date (b : ℚ) (l : List (String × (ℚ × ℚ))) :
    (chartMap b l).map DailyPoint.date = l.map Prod.fst := by
  induction l generalizing b with
  | nil => simp [chartMap]
  | cons p rest ih => simp [chartMap, ih]

lemma chartMap_length (b : ℚ) (l : List (String × (ℚ × ℚ))) :
    (chartMap b l).length = l.length := by
  induction l generalizing b with
  | nil => simp [chartMap]
  | cons p rest ih => simp [chartMap, ih]

lemma chartMap_getLast? (l : List (String × (ℚ × ℚ))) (b : ℚ) (p : DailyPoint)
    (h : (chartMap b l).getLast? = some p) :
    p.cumulativeBalance = b + (l.map (fun q => q.2.1 - q.2.2)).sum := by
  induction l generalizing b with
  | nil => simp [chartMap] at h
  | cons q rest ih =>
    match rest with
    | [] =>
      simp [chartMap, List.getLast?] at h
      subst h
      simp
    | r :: rest2 =>
      have hstep : (chartMap b (q :: r :: rest2)).getLast?
          = (chartMap (b + (q.2.1 - q.2.2)) (r :: rest2)).getLast? := by
        simp only [chartMap]
        rw [List.getLast?_cons_cons]
      rw [hstep] at h
      have := ih (b + (q.2.1 - q.2.2)) h
      simp only [List.map_cons, List.sum_cons] at this ⊢
      linarith

/-- The signed amount a transaction contributes to net flow. -/
lemma contrib_net (t : Transaction) :
    (contribOf t).1 - (contribOf t).2
      = (match t.type with
         | TType.income => t.amount
         | TType.expense => -t.amount) := by
  cases h : t.type <;> simp [contribOf, h]

lemma sum_signed_eq_spec (ts : List Transaction) :
    (ts.map (fun t => (contribOf t).1 - (contribOf t).2)).sum
      = specTotalIncome ts - specTotalExpenses ts := by
  induction ts with
  | nil => simp [specTotalIncome, specTotalExpenses]
  | cons t rest ih =>
    cases h : t.type
    · have hc : (contribOf t).1 - (contribOf t).2 = t.amount := by simp [contribOf, h]
      simp only [specTotalIncome, specTotalExpenses] at ih ⊢
      simp only [List.map_cons, List.sum_cons, hc, List.filter_cons, h]
      simp only [ih]
      simp
      ring
    · have hc : (contribOf t).1 - (contribOf t).2 = -t.amount := by simp [contribOf, h]
      simp only [specTotalIncome, specTotalExpenses] at ih ⊢
      simp only [List.map_cons, List.sum_cons, hc, List.filter_cons, h]
      simp only [ih]
      simp
      ring

/-- C1: whenever the daily series is non-empty, its last point's
`cumulativeBalance` is the anchor balance plus the net amount of the whole
transaction list — both as the spec-side sums and as the `netAmount`
computed by the summary code of `getAnalytics`. -/
theorem balance_reconciliation (ts : List Transaction) (b : ℚ) (p : DailyPoint)
    (h : (generateChartData (groupTransactionsByDate ts) b).getLast? = some p) :
    p.cumulativeBalance = b + (specTotalIncome ts - specTotalExpenses ts) ∧
    p.cumulativeBalance = b + netAmount ts := by
  have hsum : (((groupTransactionsByDate ts).insertionSort keyLe).map
        (fun q : String × (ℚ × ℚ) => q.2.1 - q.2.2)).sum
      = specTotalIncome ts - specTotalExpenses ts := by
    have hperm : List.Perm
        (((groupTransactionsByDate ts).insertionSort keyLe).map
          (fun q : String × (ℚ × ℚ) => q.2.1 - q.2.2))
        ((groupTransactionsByDate ts).map (fun q => q.2.1 - q.2.2)) :=
      (List.perm_insertionSort keyLe _).map _
    rw [hperm.sum_eq, groupTransactionsByDate_eq_groupBy]
    have hadd : ∀ a b : ℚ × ℚ, (a + b).1 - (a + b).2 = (a.1 - a.2) + (b.1 - b.2) := by
      intro a b
      simp [Prod.fst_add, Prod.snd_add]
      ring
    rw [sum_groupBy (fun v : ℚ × ℚ => v.1 - v.2) hadd]
    rw [List.map_map]
    exact sum_signed_eq_spec ts
  have hlast := chartMap_getLast? _ _ _ h
  rw [hsum] at hlast
  refine ⟨hlast, ?_⟩
  rw [hlast, netAmount, totalIncome_eq_spec, totalExpenses_eq_spec]

/-- Witness for C1: income 100 and expense 40 on one day, anchor 5. -/
theorem balance_reconciliation_witness :
    ({ date := "2024-01-05", income := 100, expense := 40, net := 60,
       cumulativeBalance := 65 } : DailyPoint).cumulativeBalance
        = 5 + (specTotalIncome
            [⟨100, TType.income, "Salary", "2024-01-05T10:00:00.000Z"⟩,
             ⟨40, TType.expense, "Food", "2024-01-05T12:00:00.000Z"⟩]
          - specTotalExpenses
            [⟨100, TType.income, "Salary", "2024-01-05T10:00:00.000Z"⟩,
             ⟨40, TType.expense, "Food", "2024-01-05T12:00:00.000Z"⟩]) ∧
    ({ date := "2024-01-05", income := 100, expense := 40, net := 60,
       cumulativeBalance := 65 } : DailyPoint).cumulativeBalance
        = 5 + netAmount
            [⟨100, TType.income, "Salary", "2024-01-05T10:00:00.000Z"⟩,
             ⟨40, TType.expense, "Food", "2024-01-05T12:00:00.000Z"⟩] :=
  balance_reconciliation
    [⟨100, TType.income, "Salary", "2024-01-05T10:00:00.000Z"⟩,
     ⟨40, TType.expense, "Food", "2024-01-05T12:00:00.000Z"⟩] 5 _
    (by
      simp +decide [generateChartData, groupTransactionsByDate, dayKey, contribOf,
        accumKey, chartMap, List.insertionSort, List.orderedInsert, List.takeWhile]
      norm_num)

/-- C3: the daily series has exactly one point per distinct day key with at
least one transaction (none synthesized), in strictly ascending day-key
order, and it is empty exactly when the transaction list is empty. -/
theorem chart_series_shape (ts : List Transaction) (b : ℚ) :
    (generateChartData (groupTransactionsByDate ts) b = [] ↔ ts = []) ∧
    (∀ k : String,
      k ∈ (generateChartData (groupTransactionsByDate ts) b).map DailyPoint.date
        ↔ ∃ t ∈ ts, dayKey t.date = k) ∧
    ((generateChartData (groupTransactionsByDate ts) b).map DailyPoint.date).Nodup ∧
    ((generateChartData (groupTransactionsByDate ts) b).map DailyPoint.date).Pairwise
      (· < ·) := by
  have hdates : (generateChartData (groupTransactionsByDate ts) b).map DailyPoint.date
      = ((groupTransactionsByDate ts).insertionSort keyLe).map Prod.fst := by
    rw [generateChartData, chartMap_map_date]
  have hpermkeys : List.Perm
      (((groupTransactionsByDate ts).insertionSort keyLe).map Prod.fst)
      ((groupTransactionsByDate ts).map Prod.fst) :=
    (List.perm_insertionSort keyLe _).map _
  have hmem : ∀ k : String,
      k ∈ (generateChartData (groupTransactionsByDate ts) b).map DailyPoint.date
        ↔ ∃ t ∈ ts, dayKey t.date = k := by
    intro k
    rw [hdates, hpermkeys.mem_iff, groupTransactionsByDate_eq_groupBy, mem_keys_groupBy]
    simp [eq_comm]
  have hnodup : ((generateChartData (groupTransactionsByDate ts) b).map
      DailyPoint.date).Nodup := by
    rw [hdates, hpermkeys.nodup_iff, groupTransactionsByDate_eq_groupBy]
    exact nodup_keys_groupBy _
  refine ⟨?_, hmem, hnodup, ?_⟩
  · constructor
    · intro h
      match hts : ts with
      | [] => rfl
      | t :: rest =>
        exfalso
        have := (hmem (dayKey t.date)).mpr ⟨t, by simp [hts], rfl⟩
        rw [h] at this
        simp at this
    · intro h
      subst h
      rfl
  · have hsorted : (((groupTransactionsByDate ts).insertionSort keyLe).map
        Prod.fst).Pairwise (· ≤ ·) := by
      have := List.sorted_insertionSort keyLe (groupTransactionsByDate ts)
      rw [List.pairwise_map]
      exact this
    rw [hdates]
    have hne : (((groupTransactionsByDate ts).insertionSort keyLe).map
        Prod.fst).Pairwise (· ≠ ·) := by
      rw [← hdates]
      exact hnodup
    have := hsorted.and hne
    exact this.imp (fun h => lt_of_le_of_ne h.1 h.2)

/-! ## Category breakdown lemmas -/

lemma lookupAmount_accumKey (l : List (String × ℚ)) (k' : String) (v : ℚ) (k : String) :
    lookupAmount (accumKey l k' v) k
      = lookupAmount l k + (if k' = k then v else 0) := by
  induction l with
  | nil =>
    simp only [accumKey, lookupAmount]
    split <;> simp
  | cons p rest ih =>
    obtain ⟨k0, v0⟩ := p
    by_cases h0 : k0 = k'
    · subst h0
      simp only [accumKey, if_pos rfl, lookupAmount]
      by_cases hk : k0 = k
      · simp [hk]
      · simp [hk]
    · simp only [accumKey, if_neg h0, lookupAmount]
      by_cases hk : k0 = k
      · have : k' ≠ k := fun hh => h0 (hh.trans hk.symm).symm
        simp [hk, this]
      · simp [hk, ih]

lemma lookupAmount_groupBy_aux (ps : List (String × ℚ)) (acc : List (String × ℚ))
    (k : String) :
    lookupAmount (ps.foldl (fun acc p => accumKey acc p.1 p.2) acc) k
      = lookupAmount acc k + ((ps.filter (fun p => p.1 = k)).map Prod.snd).sum := by
  induction ps generalizing acc with
  | nil => simp
  | cons p rest ih =>
    simp only [List.foldl_cons, List.filter_cons]
    rw [ih, lookupAmount_accumKey]
    by_cases hk : p.1 = k
    · simp [hk]
      ring
    · simp [hk]

lemma lookupAmount_groupBy (ps : List (String × ℚ)) (k : String) :
    lookupAmount (groupBy ps) k = ((ps.filter (fun p => p.1 = k)).map Prod.snd).sum := by
  rw [groupBy, lookupAmount_groupBy_aux]
  simp [lookupAmount]

lemma lookupAmount_eq_of_mem (l : List (String × ℚ)) (p : String × ℚ)
    (hnd : (l.map Prod.fst).Nodup) (hp : p ∈ l) : lookupAmount l p.1 = p.2 := by
  induction l with
  | nil => simp at hp
  | cons q rest ih =>
    simp only [List.map_cons, List.nodup_cons] at hnd
    rcases List.mem_cons.mp hp with h | h
    · subst h
      simp [lookupAmount]
    · have hne : q.1 ≠ p.1 := by
        intro hh
        exact hnd.1 (hh ▸ List.mem_map_of_mem Prod.fst h)
      obtain ⟨k0, v0⟩ := q
      simp only [lookupAmount, if_neg hne]
      exact ih hnd.2 h

lemma breakdownAcc_income_aux (ts : List Transaction) (acc : BreakdownAcc) :
    (ts.foldl breakdownStep acc).incomeCategories
      = ((ts.filter (fun t => t.type = TType.income)).map
          (fun t => (t.category, t.amount))).foldl
            (fun l p => accumKey l p.1 p.2) acc.incomeCategories := by
  induction ts generalizing acc with
  | nil => simp
  | cons t rest ih =>
    cases h : t.type
    · simp [List.filter_cons, h, ih, breakdownStep]
    · simp [List.filter_cons, h, ih, breakdownStep]

lemma breakdownAcc_expense_aux (ts : List Transaction) (acc : BreakdownAcc) :
    (ts.foldl breakdownStep acc).expenseCategories
      = ((ts.filter (fun t => t.type = TType.expense)).map
          (fun t => (t.category, t.amount))).foldl
            (fun l p => accumKey l p.1 p.2) acc.expenseCategories := by
  induction ts generalizing acc with
  | nil => simp
  | cons t rest ih =>
    cases h : t.type
    · simp [List.filter_cons, h, ih, breakdownStep]
    · simp [List.filter_cons, h, ih, breakdownStep]

lemma breakdownAcc_income_eq (ts : List Transaction) :
    (breakdownAcc ts).incomeCategories
      = groupBy ((ts.filter (fun t => t.type = TType.income)).map
          (fun t => (t.category, t.amount))) := by
  rw [breakdownAcc, breakdownAcc_income_aux, groupBy]

lemma breakdownAcc_expense_eq (ts : List Transaction) :
    (breakdownAcc ts).expenseCategories
      = groupBy ((ts.filter (fun t => t.type = TType.expense)).map
          (fun t => (t.category, t.amount))) := by
  rw [breakdownAcc, breakdownAcc_expense_aux, groupBy]

lemma breakdownAcc_totalIncome_aux (ts : List Transaction) (acc : BreakdownAcc) :
    (ts.foldl breakdownStep acc).totalIncome = acc.totalIncome + specTotalIncome ts := by
  induction ts generalizing acc with
  | nil => simp [specTotalIncome]
  | cons t rest ih =>
    cases h : t.type
    · simp [breakdownStep, h, ih, specTotalIncome, List.filter_cons, add_assoc]
    · simp [breakdownStep, h, ih, specTotalIncome, List.filter_cons]

lemma breakdownAcc_totalExpenses_aux (ts : List Transaction) (acc : BreakdownAcc) :
    (ts.foldl breakdownStep acc).totalExpenses
      = acc.totalExpenses + specTotalExpenses ts := by
  induction ts generalizing acc with
  | nil => simp [specTotalExpenses]
  | cons t rest ih =>
    cases h : t.type
    · simp [breakdownStep, h, ih, specTotalExpenses, List.filter_cons]
    · simp [breakdownStep, h, ih, specTotalExpenses, List.filter_cons, add_assoc]

lemma breakdownAcc_totalIncome (ts : List Transaction) :
    (breakdownAcc ts).totalIncome = specTotalIncome ts := by
  rw [breakdownAcc, breakdownAcc_totalIncome_aux]
  simp

lemma breakdownAcc_totalExpenses (ts : List Transaction) :
    (breakdownAcc ts).totalExpenses = specTotalExpenses ts := by
  rw [breakdownAcc, breakdownAcc_totalExpenses_aux]
  simp

lemma filter_orderedInsert_amount (x : CategorySlice) (l : List CategorySlice) (v : ℚ) :
    (List.orderedInsert amountGe x l).filter (fun s => s.amount = v)
      = if x.amount = v then x :: l.filter (fun s => s.amount = v)
        else l.filter (fun s => s.amount = v) := by
  induction l with
  | nil =>
    simp only [List.orderedInsert, List.filter]
    by_cases hx : x.amount = v <;> simp [hx]
  | cons y ys ih =>
    by_cases hxy : amountGe x y
    · simp only [List.orderedInsert, if_pos hxy, List.filter_cons]
      by_cases hx : x.amount = v <;> simp [hx]
    · have hlt : x.amount < y.amount := not_le.mp hxy
      simp only [List.orderedInsert, if_neg hxy, List.filter_cons, ih]
      by_cases hx : x.amount = v
      · have hy : ¬ (y.amount = v) := by
          intro hh
          rw [← hx] at hh
          exact absurd hh (ne_of_gt hlt)
        simp [hx, hy]
      · by_cases hy : y.amount = v <;> simp [hx, hy]

lemma filter_insertionSort_amount (l : List CategorySlice) (v : ℚ) :
    (l.insertionSort amountGe).filter (fun s => s.amount = v)
      = l.filter (fun s => s.amount = v) := by
  induction l with
  | nil => rfl
  | cons x xs ih =>
    simp only [List.insertionSort, filter_orderedInsert_amount, ih, List.filter_cons]
    by_cases hx : x.amount = v <;> simp [hx]

lemma mem_formatCategories (cats : List (String × ℚ)) (total : ℚ) (s : CategorySlice) :
    s ∈ formatCategories cats total ↔ ∃ p ∈ cats, s = sliceOf total p := by
  rw [formatCategories, List.mem_insertionSort]
  simp [eq_comm]

lemma map_category_formatCategories (cats : List (String × ℚ)) (total : ℚ) :
    List.Perm ((formatCategories cats total).map CategorySlice.category)
      (cats.map Prod.fst) := by
  have h1 : List.Perm ((formatCategories cats total).map CategorySlice.category)
      ((cats.map (sliceOf total)).map CategorySlice.category) :=
    (List.perm_insertionSort amountGe _).map _
  have h2 : (cats.map (sliceOf total)).map CategorySlice.category = cats.map Prod.fst := by
    rw [List.map_map]
    rfl
  rw [h2] at h1
  exact h1

lemma partition_props (pty : TType) (ts : List Transaction) (T : ℚ)
    (G : List (String × ℚ))
    (hG : G = groupBy ((ts.filter (fun t => t.type = pty)).map
      (fun t => (t.category, t.amount)))) :
    ((formatCategories G T).map CategorySlice.category).Nodup ∧
    (∀ c : String, c ∈ (formatCategories G T).map CategorySlice.category
      ↔ ∃ t ∈ ts, t.type = pty ∧ t.category = c) ∧
    (∀ s ∈ formatCategories G T,
      s.amount = ((ts.filter (fun t => t.type = pty ∧ t.category = s.category)).map
        Transaction.amount).sum) ∧
    (∀ s ∈ formatCategories G T,
      s.percentage = if 0 < T then jsRound (s.amount / T * 100) else 0) ∧
    ((formatCategories G T).Pairwise amountGe) ∧
    (∀ v : ℚ, (formatCategories G T).filter (fun s => s.amount = v)
      = (G.map (sliceOf T)).filter (fun s => s.amount = v)) := by
  have hperm := map_category_formatCategories G T
  refine ⟨?_, ?_, ?_, ?_, List.sorted_insertionSort amountGe _, ?_⟩
  · rw [hperm.nodup_iff, hG]
    exact nodup_keys_groupBy _
  · intro c
    rw [hperm.mem_iff, hG, mem_keys_groupBy]
    simp only [List.map_map, List.mem_map, List.mem_filter, Function.comp]
    constructor
    · rintro ⟨t, ⟨ht, hty⟩, hc⟩
      exact ⟨t, ht, by simpa using hty, hc⟩
    · rintro ⟨t, ht, hty, hc⟩
      exact ⟨t, ⟨ht, by simpa using hty⟩, hc⟩
  · intro s hs
    obtain ⟨p, hpG, rfl⟩ := (mem_formatCategories _ _ _).mp hs
    have hnd : (G.map Prod.fst).Nodup := by
      rw [hG]
      exact nodup_keys_groupBy _
    have hval : lookupAmount G p.1 = p.2 := lookupAmount_eq_of_mem G p hnd hpG
    have hlook : lookupAmount G p.1
        = (((((ts.filter (fun t => t.type = pty)).map
            (fun t => (t.category, t.amount))).filter
              (fun q => q.1 = p.1)).map Prod.snd).sum) := by
      rw [hG, lookupAmount_groupBy]
    show p.2 = _
    rw [← hval, hlook]
    congr 1
    rw [List.filter_map, List.map_map]
    have : (ts.filter (fun t => t.type = pty ∧ t.category = (sliceOf T p).category))
        = (ts.filter (fun t => t.type = pty)).filter
            (fun t => t.category = p.1) := by
      rw [List.filter_filter]
      apply List.filter_congr
      intro a ha
      simp [sliceOf, Bool.decide_and, Bool.and_comm]
    rw [this]
    congr 1
  · intro s hs
    obtain ⟨p, hpG, rfl⟩ := (mem_formatCategories _ _ _).mp hs
    rfl
  · intro v
    exact filter_insertionSort_amount _ v

/-- C4: the category breakdown groups each type's transactions by
category (one slice per category, amounts summed), computes
`percentage = round(amount / partitionTotal * 100)` for a positive
partition total and `0` for a zero total, and returns each partition
sorted descending by amount with ties in grouping insertion order (the
stable-sort filter characterisation). -/
theorem category_breakdown_correct (ts : List Transaction) :
    (((calculateCategoryBreakdown ts).income.map CategorySlice.category).Nodup ∧
     (∀ c : String, c ∈ (calculateCategoryBreakdown ts).income.map CategorySlice.category
       ↔ ∃ t ∈ ts, t.type = TType.income ∧ t.category = c) ∧
     (∀ s ∈ (calculateCategoryBreakdown ts).income,
       s.amount = ((ts.filter (fun t => t.type = TType.income ∧
         t.category = s.category)).map Transaction.amount).sum) ∧
     (∀ s ∈ (calculateCategoryBreakdown ts).income,
       (0 < specTotalIncome ts →
         s.percentage = jsRound (s.amount / specTotalIncome ts * 100)) ∧
       (specTotalIncome ts = 0 → s.percentage = 0)) ∧
     ((calculateCategoryBreakdown ts).income.Pairwise amountGe) ∧
     (∀ v : ℚ, (calculateCategoryBreakdown ts).income.filter (fun s => s.amount = v)
       = ((breakdownAcc ts).incomeCategories.map (sliceOf (specTotalIncome ts))).filter
           (fun s => s.amount = v))) ∧
    (((calculateCategoryBreakdown ts).expense.map CategorySlice.category).Nodup ∧
     (∀ c : String, c ∈ (calculateCategoryBreakdown ts).expense.map CategorySlice.category
       ↔ ∃ t ∈ ts, t.type = TType.expense ∧ t.category = c) ∧
     (∀ s ∈ (calculateCategoryBreakdown ts).expense,
       s.amount = ((ts.filter (fun t => t.type = TType.expense ∧
         t.category = s.category)).map Transaction.amount).sum) ∧
     (∀ s ∈ (calculateCategoryBreakdown ts).expense,
       (0 < specTotalExpenses ts →
         s.percentage = jsRound (s.amount / specTotalExpenses ts * 100)) ∧
       (specTotalExpenses ts = 0 → s.percentage = 0)) ∧
     ((calculateCategoryBreakdown ts).expense.Pairwise amountGe) ∧
     (∀ v : ℚ, (calculateCategoryBreakdown ts).expense.filter (fun s => s.amount = v)
       = ((breakdownAcc ts).expenseCategories.map (sliceOf (specTotalExpenses ts))).filter
           (fun s => s.amount = v))) := by
  have hinc : (calculateCategoryBreakdown ts).income
      = formatCategories (breakdownAcc ts).incomeCategories (specTotalIncome ts) := by
    rw [calculateCategoryBreakdown, breakdownAcc_totalIncome]
  have hexp : (calculateCategoryBreakdown ts).expense
      = formatCategories (breakdownAcc ts).expenseCategories (specTotalExpenses ts) := by
    rw [calculateCategoryBreakdown, breakdownAcc_totalExpenses]
  obtain ⟨i1, i2, i3, i4, i5, i6⟩ :=
    partition_props TType.income ts (specTotalIncome ts) _ (breakdownAcc_income_eq ts)
  obtain ⟨e1, e2, e3, e4, e5, e6⟩ :=
    partition_props TType.expense ts (specTotalExpenses ts) _ (breakdownAcc_expense_eq ts)
  rw [hinc, hexp]
  refine ⟨⟨i1, i2, i3, ?_, i5, i6⟩, ⟨e1, e2, e3, ?_, e5, e6⟩⟩
  · intro s hs
    have hp := i4 s hs
    constructor
    · intro hT
      rw [hp, if_pos hT]
    · intro hT0
      rw [hp, hT0]
      simp
  · intro s hs
    have hp := e4 s hs
    constructor
    · intro hT
      rw [hp, if_pos hT]
    · intro hT0
      rw [hp, hT0]
      simp

/-- Witness for C4 on the two-category fixture: the `A` slice's amount is
the summed amount of its category's transactions. -/
theorem category_breakdown_correct_witness :
    (sliceOf (specTotalIncome sampleIncome) ("A", 60)).amount
      = ((sampleIncome.filter (fun t => t.type = TType.income ∧
          t.category = (sliceOf (specTotalIncome sampleIncome) ("A", 60)).category)).map
          Transaction.amount).sum := by
  have hG : (breakdownAcc sampleIncome).incomeCategories = [("A", 60), ("B", 40)] := by
    simp +decide [sampleIncome, breakdownAcc, breakdownStep, accumKey]
  have hmem : sliceOf (specTotalIncome sampleIncome) ("A", 60)
      ∈ (calculateCategoryBreakdown sampleIncome).income := by
    have hinc : (calculateCategoryBreakdown sampleIncome).income
        = formatCategories (breakdownAcc sampleIncome).incomeCategories
            (specTotalIncome sampleIncome) := by
      rw [calculateCategoryBreakdown, breakdownAcc_totalIncome]
    rw [hinc, hG, mem_formatCategories]
    exact ⟨("A", 60), by simp, rfl⟩
  exact (category_breakdown_correct sampleIncome).1.2.2.1 _ hmem

/-! ## Percentage closure lemmas -/

lemma sum_jsRound_upper (l : List ℚ) :
    (l.map (fun q => ((jsRound q : ℤ) : ℚ))).sum ≤ l.sum + l.length * (1/2) := by
  induction l with
  | nil => simp
  | cons q rest ih =>
    simp only [List.map_cons, List.sum_cons, List.length_cons]
    have h := jsRound_le q
    push_cast
    push_cast at ih
    linarith

lemma sum_jsRound_lower_le (l : List ℚ) :
    l.sum - l.length * (1/2) ≤ (l.map (fun q => ((jsRound q : ℤ) : ℚ))).sum := by
  induction l with
  | nil => simp
  | cons q rest ih =>
    simp only [List.map_cons, List.sum_cons, List.length_cons]
    have h := lt_jsRound q
    push_cast
    push_cast at ih
    linarith

lemma sum_jsRound_lower (l : List ℚ) (hl : l ≠ []) :
    l.sum - l.length * (1/2) < (l.map (fun q => ((jsRound q : ℤ) : ℚ))).sum := by
  match l with
  | [] => exact absurd rfl hl
  | q :: rest =>
    simp only [List.map_cons, List.sum_cons, List.length_cons]
    have h := lt_jsRound q
    have h2 := sum_jsRound_lower_le rest
    push_cast
    push_cast at h2
    linarith

lemma sum_share_eq (cats : List (String × ℚ)) (total : ℚ) :
    (cats.map (fun p => p.2 / total * 100)).sum = (cats.map Prod.snd).sum / total * 100 := by
  induction cats with
  | nil => simp
  | cons p rest ih =>
    simp only [List.map_cons, List.sum_cons, ih]
    ring

/-- C5: for a non-empty category partition with non-negative amounts and a
strictly positive total equal to the sum of its amounts, the slice
percentages sum to `100 ± (n − 1)` and each lies in `[0, 100]`. -/
theorem percentage_closure (cats : List (String × ℚ)) (total : ℚ)
    (hne : cats ≠ [])
    (hnn : ∀ p ∈ cats, 0 ≤ p.2)
    (htot : total = (cats.map Prod.snd).sum)
    (hpos : 0 < total) :
    (100 - (((formatCategories cats total).length : ℤ) - 1)
        ≤ ((formatCategories cats total).map CategorySlice.percentage).sum ∧
     ((formatCategories cats total).map CategorySlice.percentage).sum
        ≤ 100 + (((formatCategories cats total).length : ℤ) - 1)) ∧
    ∀ s ∈ formatCategories cats total, 0 ≤ s.percentage ∧ s.percentage ≤ 100 := by
  have hlen : (formatCategories cats total).length = cats.length := by
    rw [formatCategories, List.length_insertionSort, List.length_map]
  have hpermp : List.Perm ((formatCategories cats total).map CategorySlice.percentage)
      ((cats.map (sliceOf total)).map CategorySlice.percentage) :=
    (List.perm_insertionSort amountGe _).map _
  have hmapp : (cats.map (sliceOf total)).map CategorySlice.percentage
      = (cats.map (fun p => p.2 / total * 100)).map jsRound := by
    rw [List.map_map, List.map_map]
    apply List.map_congr_left
    intro p hp
    simp [sliceOf, if_pos hpos]
  have hS : ((((formatCategories cats total).map CategorySlice.percentage).sum : ℤ) : ℚ)
      = ((cats.map (fun p => p.2 / total * 100)).map
          (fun q => ((jsRound q : ℤ) : ℚ))).sum := by
    rw [hpermp.sum_eq, hmapp, Int.cast_list_sum, List.map_map]
    rfl
  have hlsum : (cats.map (fun p => p.2 / total * 100)).sum = 100 := by
    rw [sum_share_eq, ← htot, div_self (ne_of_gt hpos)]
    norm_num
  have hub := sum_jsRound_upper (cats.map (fun p => p.2 / total * 100))
  have hlb := sum_jsRound_lower (cats.map (fun p => p.2 / total * 100))
    (by simpa using hne)
  rw [hlsum, List.length_map] at hub hlb
  rw [← hS] at hub hlb
  have hn1 : 1 ≤ cats.length := List.length_pos.mpr hne
  have hn1q : (1 : ℚ) ≤ (cats.length : ℚ) := by exact_mod_cast hn1
  refine ⟨⟨?_, ?_⟩, ?_⟩
  · rw [hlen]
    by_contra hcon
    push_neg at hcon
    have hcon' : ((formatCategories cats total).map CategorySlice.percentage).sum
        ≤ 100 - (cats.length : ℤ) := by omega
    have : ((((formatCategories cats total).map CategorySlice.percentage).sum : ℤ) : ℚ)
        ≤ 100 - (cats.length : ℚ) := by exact_mod_cast hcon'
    linarith
  · rw [hlen]
    by_contra hcon
    push_neg at hcon
    have hcon' : 100 + (cats.length : ℤ)
        ≤ ((formatCategories cats total).map CategorySlice.percentage).sum := by omega
    have : (100 + (cats.length : ℚ))
        ≤ ((((formatCategories cats total).map CategorySlice.percentage).sum : ℤ) : ℚ) := by
      exact_mod_cast hcon'
    linarith
  · intro s hs
    obtain ⟨p, hpc, rfl⟩ := (mem_formatCategories _ _ _).mp hs
    have hper : (sliceOf total p).percentage = jsRound (p.2 / total * 100) := by
      simp [sliceOf, if_pos hpos]
    have h0 : 0 ≤ p.2 := hnn p hpc
    have hle : p.2 ≤ total := by
      rw [htot]
      refine List.single_le_sum ?_ _ (List.mem_map_of_mem Prod.snd hpc)
      intro a ha
      obtain ⟨q, hq, rfl⟩ := List.mem_map.mp ha
      exact hnn q hq
    have hx0 : 0 ≤ p.2 / total * 100 := by positivity
    have hx100 : p.2 / total * 100 ≤ 100 := by
      rw [div_mul_eq_mul_div, div_le_iff₀ hpos]
      nlinarith
    constructor
    · rw [hper]
      by_contra hcon
      push_neg at hcon
      have hcon' : jsRound (p.2 / total * 100) ≤ -1 := by omega
      have hc : ((jsRound (p.2 / total * 100) : ℤ) : ℚ) ≤ -1 := by exact_mod_cast hcon'
      have := lt_jsRound (p.2 / total * 100)
      linarith
    · rw [hper]
      by_contra hcon
      push_neg at hcon
      have hcon' : (101 : ℤ) ≤ jsRound (p.2 / total * 100) := by omega
      have hc : (101 : ℚ) ≤ ((jsRound (p.2 / total * 100) : ℤ) : ℚ) := by exact_mod_cast hcon'
      have := jsRound_le (p.2 / total * 100)
      linarith

/-- Witness for C5 on the two-slice partition `A = 60`, `B = 40`,
total 100. -/
theorem percentage_closure_witness :
    (100 - (((formatCategories [("A", 60), ("B", 40)] 100).length : ℤ) - 1)
        ≤ ((formatCategories [("A", 60), ("B", 40)] 100).map CategorySlice.percentage).sum ∧
     ((formatCategories [("A", 60), ("B", 40)] 100).map CategorySlice.percentage).sum
        ≤ 100 + (((formatCategories [("A", 60), ("B", 40)] 100).length : ℤ) - 1)) ∧
    ∀ s ∈ formatCategories [("A", 60), ("B", 40)] 100,
      0 ≤ s.percentage ∧ s.percentage ≤ 100 :=
  percentage_closure [("A", 60), ("B", 40)] 100 (by simp)
    (by
      intro p hp
      rcases List.mem_cons.mp hp with h | h
      · rw [h]; norm_num
      · rcases List.mem_cons.mp h with h2 | h2
        · rw [h2]; norm_num
        · simp at h2)
    (by simp; norm_num)
    (by norm_num)

/-! ## Period rejection and creation validation -/

/-- C8: a period token outside `{7d, 30d, 90d, 1y}` makes both endpoints
answer the InvalidPeriod 400 regardless of the fetched data (so before
any fetch result can matter), `"5d"` is such a token, and tokens inside
the set never produce that failure — the endpoints answer `ok`. -/
theorem invalid_period_rejected (p u : String) (now bal : ℚ)
    (s s' : List Transaction) :
    (p ∉ validPeriods →
      getTransactionsByPeriodResp (some u) p now s = .clientError invalidPeriodMsg ∧
      getAnalyticsResp (some u) p now bal s = .clientError invalidPeriodMsg ∧
      getTransactionsByPeriodResp (some u) p now s
        = getTransactionsByPeriodResp (some u) p now s' ∧
      getAnalyticsResp (some u) p now bal s = getAnalyticsResp (some u) p now bal s') ∧
    "5d" ∉ validPeriods ∧
    (p ∈ validPeriods →
      getTransactionsByPeriodResp (some u) p now s ≠ .clientError invalidPeriodMsg ∧
      getAnalyticsResp (some u) p now bal s ≠ .clientError invalidPeriodMsg ∧
      (∃ b, getTransactionsByPeriodResp (some u) p now s = .ok b) ∧
      (∃ b, getAnalyticsResp (some u) p now bal s = .ok b)) := by
  refine ⟨?_, by decide, ?_⟩
  · intro h
    refine ⟨?_, ?_, ?_, ?_⟩ <;> simp [getTransactionsByPeriodResp, getAnalyticsResp, h]
  · intro h
    refine ⟨?_, ?_, ?_, ?_⟩ <;> simp [getTransactionsByPeriodResp, getAnalyticsResp, h]

/-- Witness for C8: `"5d"` is rejected identically on two different
stores, and `"7d"` succeeds. -/
theorem invalid_period_rejected_witness :
    (getTransactionsByPeriodResp (some "user") "5d" 0 [] = .clientError invalidPeriodMsg ∧
     getAnalyticsResp (some "user") "5d" 0 0 [] = .clientError invalidPeriodMsg ∧
     getTransactionsByPeriodResp (some "user") "5d" 0 []
       = getTransactionsByPeriodResp (some "user") "5d" 0 sampleIncome ∧
     getAnalyticsResp (some "user") "5d" 0 0 []
       = getAnalyticsResp (some "user") "5d" 0 0 sampleIncome) ∧
    (∃ b, getTransactionsByPeriodResp (some "user") "7d" 0 [] = .ok b) :=
  ⟨(invalid_period_rejected "5d" "user" 0 0 [] sampleIncome).1 (by decide),
   ((invalid_period_rejected "7d" "user" 0 0 [] sampleIncome).2.2 (by decide)).2.2.1⟩

/-- The amount fails validation: it is not a (finite) number, or it is a
number `≤ 0`. -/
def amountInvalid (a : JsVal) : Prop := ∀ q : ℚ, a = JsVal.num q → q ≤ 0

/-- C10: a createTransaction request whose amount is not a number, NaN,
or `≤ 0` gets a 400-class error and leaves the state (stored rows and
balance) unchanged; and any successful creation stores a transaction
with strictly positive amount at the head of the rows, moving the
balance by its signed amount. -/
theorem create_amount_validation (userId : Option String)
    (req : CreateTransactionRequest) (now : String) (st : UserState) :
    (amountInvalid req.amount →
      (createTransaction userId req now st).1.isError = true ∧
      (createTransaction userId req now st).2 = st) ∧
    (∀ (t : Transaction) (bal : ℚ),
      (createTransaction userId req now st).1 = CreateResult.created t bal →
      0 < t.amount ∧
      (createTransaction userId req now st).2.transactions = t :: st.transactions ∧
      (createTransaction userId req now st).2.balance
        = st.balance + (if t.type = TType.income then t.amount else -t.amount)) := by
  constructor
  · intro hinv
    match userId with
    | none => exact ⟨rfl, rfl⟩
    | some uid =>
      match hty : req.type with
      | none => simp [createTransaction, hty, CreateResult.isError]
      | some tyStr =>
        by_cases hv : tyStr = "income" ∨ tyStr = "expense"
        · match ha : req.amount with
          | .num q =>
            have hq : q ≤ 0 := hinv q ha
            simp [createTransaction, hty, hv, ha, hq, CreateResult.isError]
          | .nan => simp [createTransaction, hty, hv, ha, CreateResult.isError]
          | .other => simp [createTransaction, hty, hv, ha, CreateResult.isError]
        · simp [createTransaction, hty, hv, CreateResult.isError]
  · intro t bal hok
    match userId with
    | none => simp [createTransaction] at hok
    | some uid =>
      match hty : req.type with
      | none => simp [createTransaction, hty] at hok
      | some tyStr =>
        by_cases hv : tyStr = "income" ∨ tyStr = "expense"
        · match ha : req.amount with
          | .num q =>
            by_cases hq : q ≤ 0
            · simp [createTransaction, hty, hv, ha, hq] at hok
            · match hd : req.description with
              | none => simp [createTransaction, hty, hv, ha, hq, hd] at hok
              | some d =>
                by_cases hde : d = ""
                · simp [createTransaction, hty, hv, ha, hq, hd, hde] at hok
                · simp only [createTransaction, hty, ha, hd] at hok ⊢
                  rw [if_pos hv, if_neg hq, if_neg hde] at hok ⊢
                  simp only [] at hok
                  injection hok with h1 h2
                  subst h1
                  refine ⟨not_le.mp hq, rfl, ?_⟩
                  by_cases hinc : tyStr = "income"
                  · simp [hinc]
                  · simp [hinc]
          | .nan => simp [createTransaction, hty, hv, ha] at hok
          | .other => simp [createTransaction, hty, hv, ha] at hok
        · simp [createTransaction, hty, hv] at hok

/-! ## Month-range lemmas -/

lemma daysInMonth_ge (m : ℤ) : 28 ≤ daysInMonth m := by
  unfold daysInMonth
  dsimp only
  split_ifs <;> norm_num

lemma jsMkDate_first (y mo : ℤ) : jsMkDate y mo 1 0 0 0 = ⟨y * 12 + mo, 0⟩ := by
  unfold jsMkDate
  norm_num

lemma jsMkDate_last (y M : ℤ) :
    jsMkDate y M 0 23 59 59 = ⟨y * 12 + M - 1, monthMs (y * 12 + M - 1) - 1000⟩ := by
  unfold jsMkDate monthMs
  simp only [if_true, Instant.mk.injEq]
  norm_num
  ring

lemma getMonthRanges_eq (now : Instant) :
    getMonthRanges now
      = ⟨⟨⟨now.month, 0⟩, ⟨now.month, monthMs now.month - 1000⟩⟩,
         ⟨⟨now.month - 1, 0⟩, ⟨now.month - 1, monthMs (now.month - 1) - 1000⟩⟩⟩ := by
  simp only [getMonthRanges]
  rw [jsMkDate_first, jsMkDate_last, jsMkDate_first, jsMkDate_last]
  have e1 : now.month / 12 * 12 + now.month % 12 = now.month := by omega
  have e2 : now.month / 12 * 12 + (now.month % 12 + 1) - 1 = now.month := by omega
  have e3 : now.month / 12 * 12 + (now.month % 12 - 1) = now.month - 1 := by omega
  rw [e1, e2, e3]

/-- C9 (counterexample to the claim as stated): at January 2024
(absolute month 24288) the current range does not end at the month's
last instant, and the well-formed instant 500 ms before the month's end
lies between the claimed bounds but in neither range. -/
theorem month_pair_spec_fails :
    ¬ monthPairSpec ⟨24288, 0⟩ ∧
    Instant.WF ⟨24288, monthMs 24288 - 500⟩ ∧
    ¬ inRange (getMonthRanges ⟨24288, 0⟩).previous ⟨24288, monthMs 24288 - 500⟩ ∧
    ¬ inRange (getMonthRanges ⟨24288, 0⟩).current ⟨24288, monthMs 24288 - 500⟩ := by
  have hms : monthMs 24288 = 2678400000 := by decide
  refine ⟨?_, ?_, ?_, ?_⟩
  · intro h
    have h2 := h.2.1
    simp only [getMonthRanges_eq, Instant.mk.injEq] at h2
    omega
  · simp only [Instant.WF]
    omega
  · simp only [getMonthRanges_eq, inRange, Instant.le]
    omega
  · simp only [getMonthRanges_eq, inRange, Instant.le]
    omega

/-- C9 (amended): the current range covers the month of `now` from its
first instant to 23:59:59.000 of its last day (999 ms short of the true
last instant), the previous range likewise for the month immediately
before; the two ranges never overlap, and every well-formed whole-second
timestamp from the first instant of the previous month through the last
instant of the current month falls in exactly one of them. -/
theorem month_ranges_correct (now : Instant) :
    (getMonthRanges now).current.rangeStart = ⟨now.month, 0⟩ ∧
    (getMonthRanges now).current.rangeEnd = ⟨now.month, monthMs now.month - 1000⟩ ∧
    (getMonthRanges now).previous.rangeStart = ⟨now.month - 1, 0⟩ ∧
    (getMonthRanges now).previous.rangeEnd
      = ⟨now.month - 1, monthMs (now.month - 1) - 1000⟩ ∧
    (∀ t : Instant, ¬ (inRange (getMonthRanges now).previous t ∧
        inRange (getMonthRanges now).current t)) ∧
    (∀ t : Instant, t.WF → t.ms % 1000 = 0 →
      Instant.le ⟨now.month - 1, 0⟩ t →
      Instant.le t ⟨now.month, monthMs now.month - 1⟩ →
      (inRange (getMonthRanges now).previous t ↔ ¬ inRange (getMonthRanges now).current t)) := by
  rw [getMonthRanges_eq]
  have hd1 := daysInMonth_ge now.month
  have hd2 := daysInMonth_ge (now.month - 1)
  refine ⟨rfl, rfl, rfl, rfl, ?_, ?_⟩
  · intro t
    simp only [inRange, Instant.le, monthMs]
    omega
  · intro t hWF hsec hge hle
    obtain ⟨hms0, hmslt⟩ := hWF
    simp only [monthMs] at hmslt
    simp only [Instant.le] at hge hle
    have hcase : t.month = now.month - 1 ∨ t.month = now.month := by omega
    simp only [inRange, Instant.le, monthMs]
    rcases hcase with hc | hc
    · rw [hc] at hmslt
      omega
    · rw [hc] at hmslt
      omega

/-- Witness for the amended C9 at a concrete month: the ranges for
January 2024 and the classification of its first instant. -/
theorem month_ranges_correct_witness :
    (getMonthRanges ⟨24288, 0⟩).current.rangeStart = ⟨24288, 0⟩ ∧
    ((getMonthRanges ⟨24288, 0⟩).previous.rangeEnd
      = ⟨24287, monthMs 24287 - 1000⟩) ∧
    (inRange (getMonthRanges ⟨24288, 0⟩).previous ⟨24288, 0⟩
      ↔ ¬ inRange (getMonthRanges ⟨24288, 0⟩).current ⟨24288, 0⟩) := by
  have h := month_ranges_correct ⟨24288, 0⟩
  refine ⟨h.1, h.2.2.2.1, ?_⟩
  refine h.2.2.2.2.2 ⟨24288, 0⟩ ⟨le_rfl, ?_⟩ (by decide) ?_ ?_
  · show (0 : ℤ) < monthMs 24288
    have := daysInMonth_ge 24288
    simp only [monthMs]
    omega
  · exact Or.inl (by decide)
  · refine Or.inr ⟨rfl, ?_⟩
    show (0 : ℤ) ≤ monthMs 24288 - 1
    have := daysInMonth_ge 24288
    simp only [monthMs]
    omega

/-- Witness for C10: an income request with amount exactly 0 is rejected
and the state (no rows, balance 100) is untouched. -/
theorem create_amount_validation_witness :
    (createTransaction (some "user")
        ⟨some "income", JsVal.num 0, some "Lunch", none, none⟩
        "2024-01-05T00:00:00.000Z" ⟨[], 100⟩).1.isError = true ∧
    (createTransaction (some "user")
        ⟨some "income", JsVal.num 0, some "Lunch", none, none⟩
        "2024-01-05T00:00:00.000Z" ⟨[], 100⟩).2 = ⟨[], 100⟩ :=
  (create_amount_validation (some "user")
    ⟨some "income", JsVal.num 0, some "Lunch", none, none⟩
    "2024-01-05T00:00:00.000Z" ⟨[], 100⟩).1
    (by
      intro q h
      injection h with h2
      rw [← h2])

end Cashflow
